import Mathlib

/-!
Verification of the telemetry normalization, search, countdown and
time-series charting engine of the extra-flips-live dashboard
(pages/scanner.vue plus server/api/scan.ts).

The script section of scanner.vue is shallowly embedded here.  Untyped
JavaScript values (the decoded JSON snapshot) are modelled by the
inductive type JsVal; JavaScript numbers are modelled by JSNum, a
rational together with the non-finite values NaN and plus or minus
infinity.  JavaScript builtins used by the source (Number coercion,
Date.parse, Number.prototype.toFixed, String.prototype.trim and
toLowerCase, Math.max, Math.floor, padStart) are modelled by executable
Lean functions; where a builtin has exotic corner cases not exercised by
the dashboard (exponent notation in numeric strings, non-ISO date
formats, exponential output of toFixed for huge magnitudes) the model
covers the documented subset actually reachable from the code and is
noted at the definition.
-/

namespace ExtraFlips

/-- A JavaScript number: a finite rational, NaN, or a signed infinity. -/
inductive JSNum where
  | fin : ℚ → JSNum
  | nan : JSNum
  | inf : JSNum
  | ninf : JSNum
deriving Repr, DecidableEq

/-- Number.isFinite. -/
def JSNum.isFinite : JSNum → Bool
  | .fin _ => true
  | _ => false

/-- The rational value of a finite JS number (junk 0 on non-finite input). -/
def JSNum.toQ : JSNum → ℚ
  | .fin q => q
  | _ => 0

/-- An untyped JavaScript value, as decoded from JSON (no functions). -/
inductive JsVal where
  | undefined : JsVal
  | jnull : JsVal
  | bool : Bool → JsVal
  | num : JSNum → JsVal
  | str : String → JsVal
  | arr : List JsVal → JsVal
  | obj : List (String × JsVal) → JsVal
deriving Repr

/-- JavaScript truthiness: the falsy values are undefined, null, false,
0, NaN and the empty string. -/
def JsVal.isFalsy : JsVal → Bool
  | .undefined => true
  | .jnull => true
  | .bool b => !b
  | .num (.fin q) => q == 0
  | .num .nan => true
  | .num _ => false
  | .str s => s == ""
  | .arr _ => false
  | .obj _ => false

/-- Whether typeof yields the string "object": true for null, arrays and
plain objects. -/
def JsVal.typeofObject : JsVal → Bool
  | .jnull => true
  | .arr _ => true
  | .obj _ => true
  | _ => false

/-- Whether the value is a JS number (typeof yields "number"). -/
def JsVal.isNum : JsVal → Bool
  | .num _ => true
  | _ => false

/-- Field lookup on an object field list: first binding wins. -/
def lookupField (fields : List (String × JsVal)) (k : String) : JsVal :=
  match fields with
  | [] => .undefined
  | (k0, v) :: rest => if k0 = k then v else lookupField rest k

/-- Non-throwing property access, defined on values on which JS property
access does not throw: objects give the bound value (or undefined),
every other non-nullish value gives undefined (the properties of
primitives and the index or length properties of arrays are not used by
the source).  Access on null or undefined, which throws in JS, is junk
undefined here; the throwing behaviour is modelled by getPropE below. -/
def JsVal.getProp : JsVal → String → JsVal
  | .obj fields, k => lookupField fields k
  | _, _ => .undefined

/-- Optional chaining v?.k: short-circuits to undefined on null and
undefined, otherwise plain property access. -/
def optChain (v : JsVal) (k : String) : JsVal :=
  match v with
  | .undefined => .undefined
  | .jnull => .undefined
  | _ => v.getProp k

/-- Nullish coalescing v ?? d. -/
def nullishOr (v : JsVal) (d : JsVal) : JsVal :=
  match v with
  | .undefined => d
  | .jnull => d
  | _ => v

/-- The natural number denoted by a list of decimal digit characters. -/
def natOfDigits (l : List Char) : ℕ :=
  l.foldl (fun a c => a * 10 + (c.toNat - 48)) 0

/-- JS whitespace for trimming (the ASCII subset; exotic Unicode space
characters are out of the modelled subset). -/
def isJsSpace (c : Char) : Bool :=
  c = ' ' ∨ c = '\t' ∨ c = '\n' ∨ c = '\r'

/-- Model of String.prototype.trim: strip leading and trailing
whitespace. -/
def jsTrim (s : String) : String :=
  String.mk (((s.data.dropWhile isJsSpace).reverse.dropWhile isJsSpace).reverse)

/-- Model of String.prototype.toLowerCase (ASCII characters; the
addresses and search input the source lowercases are ASCII). -/
def jsToLower (s : String) : String :=
  String.mk (s.data.map Char.toLower)

/-- Model of JS string-to-number conversion for one unsigned decimal
literal: digits with an optional fractional part ("7", "7.", "7.25",
".5").  Exponent and hex notation are out of the modelled subset. -/
def parseUnsignedDecChars (l : List Char) : Option ℚ :=
  let intPart := l.takeWhile (fun c => c ≠ '.')
  let rest := l.dropWhile (fun c => c ≠ '.')
  match rest with
  | [] =>
    if intPart ≠ [] ∧ intPart.all Char.isDigit then some (natOfDigits intPart) else none
  | _ :: frac =>
    if '.' ∈ frac then none
    else if (intPart ≠ [] ∨ frac ≠ []) ∧ intPart.all Char.isDigit ∧ frac.all Char.isDigit then
      some ((natOfDigits intPart : ℚ) +
        (natOfDigits frac : ℚ) / ((10 : ℚ) ^ frac.length))
    else none

/-- Model of Number(string): trimmed empty string is 0, the Infinity
literals are the infinities, signed decimal literals their value, and
everything else NaN. -/
def strToJSNum (s : String) : JSNum :=
  match (jsTrim s).data with
  | [] => .fin 0
  | '-' :: rest =>
    if rest = "Infinity".data then .ninf
    else
      match parseUnsignedDecChars rest with
      | some q => .fin (-q)
      | none => .nan
  | '+' :: rest =>
    if rest = "Infinity".data then .inf
    else
      match parseUnsignedDecChars rest with
      | some q => .fin q
      | none => .nan
  | l =>
    if l = "Infinity".data then .inf
    else
      match parseUnsignedDecChars l with
      | some q => .fin q
      | none => .nan

/-- Model of the Number(v) coercion.  null is 0, undefined is NaN,
booleans are 0 or 1, strings parse as above; an array coerces through
its joined string form, modelled for the empty array (0) and the
singleton array (the coercion of its element); plain objects are NaN. -/
def jsToNumber : JsVal → JSNum
  | .undefined => .nan
  | .jnull => .fin 0
  | .bool b => if b then .fin 1 else .fin 0
  | .num n => n
  | .str s => strToJSNum s
  | .arr [] => .fin 0
  | .arr [x] => jsToNumber x
  | .arr (_ :: _ :: _) => .nan
  | .obj _ => .nan

/-- Days from 1970-01-01 to the given civil date (proleptic Gregorian),
the standard days-from-civil computation on integers. -/
def daysFromCivil (y : ℤ) (m : ℤ) (d : ℤ) : ℤ :=
  let y2 := y - (if m ≤ 2 then 1 else 0)
  let era := Int.fdiv y2 400
  let yoe := y2 - era * 400
  let mp := m + (if 2 < m then -3 else 9)
  let doy := Int.fdiv (153 * mp + 2) 5 + d - 1
  let doe := yoe * 365 + Int.fdiv yoe 4 - Int.fdiv yoe 100 + doy
  era * 146097 + doe - 719468

/-- Gregorian leap-year test. -/
def isLeapYear (y : ℕ) : Bool :=
  y % 4 = 0 ∧ (y % 100 ≠ 0 ∨ y % 400 = 0)

/-- Number of days in a month. -/
def daysInMonth (y : ℕ) (m : ℕ) : ℕ :=
  if m = 2 then (if isLeapYear y then 29 else 28)
  else if m = 4 ∨ m = 6 ∨ m = 9 ∨ m = 11 then 30
  else 31

/-- Value of a two-digit character pair. -/
def twoDigits (a : Char) (b : Char) : ℕ :=
  (a.toNat - 48) * 10 + (b.toNat - 48)

/-- Model of the JS builtin Date.parse for the UTC ISO-8601 profile
YYYY-MM-DDThh:mm:ssZ produced by the scanner: a well-formed in-range
instant gives its millisecond offset from the Unix epoch, any other
string gives NaN.  (Other date formats accepted by some engines are out
of the modelled subset.) -/
def dateParse (s : String) : JSNum :=
  match s.toList with
  | [y1, y2, y3, y4, h1, mo1, mo2, h2, d1, d2, t, hh1, hh2, c1, mi1, mi2, c2, s1, s2, z] =>
    if ([y1, y2, y3, y4, mo1, mo2, d1, d2, hh1, hh2, mi1, mi2, s1, s2].all Char.isDigit
        ∧ h1 = '-' ∧ h2 = '-' ∧ t = 'T' ∧ c1 = ':' ∧ c2 = ':' ∧ z = 'Z') then
      let y := natOfDigits [y1, y2, y3, y4]
      let mo := twoDigits mo1 mo2
      let d := twoDigits d1 d2
      let hh := twoDigits hh1 hh2
      let mi := twoDigits mi1 mi2
      let ss := twoDigits s1 s2
      if 1 ≤ mo ∧ mo ≤ 12 ∧ 1 ≤ d ∧ d ≤ daysInMonth y mo ∧ hh ≤ 23 ∧ mi ≤ 59 ∧ ss ≤ 59 then
        .fin (((daysFromCivil y mo d * 86400 + hh * 3600 + mi * 60 + ss) * 1000 : ℤ) : ℚ)
      else .nan
    else .nan
  | _ => .nan

/-- Two-digit zero padding, the String(n).padStart(2, "0") of the
source for the natural numbers it is applied to. -/
def pad2 (n : ℕ) : String :=
  if n < 10 then "0" ++ toString n else toString n

/-- Decimal rendering of a nonnegative rational rounded to two places:
the integer n closest to q * 100, ties upward, printed as n / 100. -/
def toFixed2Pos (q : ℚ) : String :=
  let n := (Int.floor (q * 100 + 1 / 2)).toNat
  toString (n / 100) ++ "." ++ pad2 (n % 100)

/-- Model of Number.prototype.toFixed(2): sign first, then the rounded
magnitude (exponential output for magnitudes at or above 10^21 is out
of the modelled subset; chart coordinates stay far below it). -/
def toFixed2 (q : ℚ) : String :=
  if q < 0 then "-" ++ toFixed2Pos (-q) else toFixed2Pos q

/-- A normalized progress point (type ProgressPoint of the source);
the counter fields are finite by construction. -/
structure ProgressPoint where
  timestamp : String
  flipsSeen : ℚ
  uniqueAuthors : ℚ
deriving Repr

/-- A normalized epoch series (type ProgressEpochSeries of the source).
The epoch is kept as a JS number: the current-epoch normalizer stores
any number found in the snapshot (NaN included) and defaults to 0. -/
structure ProgressEpochSeries where
  epoch : JSNum
  points : List ProgressPoint
deriving Repr

/-- The payload computed: data.value?.data ?? null, as a function of the
fetched response value. -/
def payload (d : JsVal) : JsVal :=
  nullishOr (optChain d "data") .jnull

/-- The gradeLeaderboard computed: the field when it is a truthy object,
else null. -/
def gradeLeaderboard (d : JsVal) : JsVal :=
  let value := optChain (payload d) "gradeLeaderboard"
  if !value.isFalsy ∧ value.typeofObject then value else .jnull

/-- The topIdentities computed: the rows when the field is an array,
else the empty list.  The source casts rather than validates rows, so
rows stay raw JS values here. -/
def topIdentities (d : JsVal) : List JsVal :=
  match optChain (gradeLeaderboard d) "topIdentities" with
  | .arr rows => rows
  | _ => []

/-- The identityLookup computed: the source rows when the field is a
nonempty array, otherwise the topIdentities fallback. -/
def identityLookup (d : JsVal) : List JsVal :=
  match optChain (gradeLeaderboard d) "identityLookup" with
  | .arr rows => if 0 < rows.length then rows else topIdentities d
  | _ => topIdentities d

/-- The topFlips computed: the rows when the field is an array, else
the empty list. -/
def topFlips (d : JsVal) : List JsVal :=
  match optChain (gradeLeaderboard d) "topFlips" with
  | .arr rows => rows
  | _ => []

/-- The progressPayload computed: the progress field when it is a truthy
object, else null. -/
def progressPayload (d : JsVal) : JsVal :=
  let value := optChain (payload d) "progress"
  if !value.isFalsy ∧ value.typeofObject then value else .jnull

/-- The point-mapping callback shared verbatim by progressCurrentSeries
and progressPreviousSeries: non-object-like elements map to null, a
missing string timestamp maps to null, and each counter is the Number
coercion of the field (?? 0) when finite, else 0. -/
def normalizePoint (point : JsVal) : Option ProgressPoint :=
  if point.isFalsy ∨ !point.typeofObject then none
  else
    match point.getProp "timestamp" with
    | .str ts =>
      let flipsSeen := jsToNumber (nullishOr (point.getProp "flipsSeen") (.num (.fin 0)))
      let uniqueAuthors := jsToNumber (nullishOr (point.getProp "uniqueAuthors") (.num (.fin 0)))
      some
        { timestamp := ts
          flipsSeen := if flipsSeen.isFinite then flipsSeen.toQ else 0
          uniqueAuthors := if uniqueAuthors.isFinite then uniqueAuthors.toQ else 0 }
    | _ => none

/-- The points pipeline of both series computeds:
value.points.map(callback).filter(Boolean). -/
def pointsOfList (xs : List JsVal) : List ProgressPoint :=
  (xs.map normalizePoint).filterMap id

/-- The progressCurrentSeries computed. -/
def progressCurrentSeries (d : JsVal) : Option ProgressEpochSeries :=
  let value := optChain (optChain (progressPayload d) "series") "currentEpoch"
  if value.isFalsy ∨ !value.typeofObject then none
  else
    let epoch := match value.getProp "epoch" with
      | .num n => n
      | _ => .fin 0
    let points := match value.getProp "points" with
      | .arr xs => pointsOfList xs
      | _ => []
    some { epoch := epoch, points := points }

/-- The per-entry callback of progressPreviousSeries: drop non-object
entries and entries whose Number-coerced epoch is not finite or not
positive; normalize the points as for the current series. -/
def normalizePrevSeries (series : JsVal) : Option ProgressEpochSeries :=
  if series.isFalsy ∨ !series.typeofObject then none
  else
    let epoch := jsToNumber (nullishOr (series.getProp "epoch") (.num (.fin 0)))
    if !epoch.isFinite ∨ epoch.toQ ≤ 0 then none
    else
      let points := match series.getProp "points" with
        | .arr xs => pointsOfList xs
        | _ => []
      some { epoch := epoch, points := points }

/-- The rows pipeline of progressPreviousSeries:
rows.map(callback).filter(Boolean).slice(0, 2). -/
def prevSeriesOfList (rows : List JsVal) : List ProgressEpochSeries :=
  (((rows.map normalizePrevSeries).filterMap id).take 2)

/-- The progressPreviousSeries computed. -/
def progressPreviousSeries (d : JsVal) : List ProgressEpochSeries :=
  match optChain (optChain (progressPayload d) "series") "previousEpochs" with
  | .arr rows => prevSeriesOfList rows
  | _ => []

/-- The progressMinRefresh computed: the field when it is a finite
number, with default 30. -/
def progressMinRefresh (d : JsVal) : ℚ :=
  match optChain (progressPayload d) "minRefreshSeconds" with
  | .num (.fin q) => q
  | _ => 30

/-!
Throw-aware semantics.  In JS the only operation of the normalizer that
can throw is plain (non-optional) property access, which throws a
TypeError on null and undefined.  The E-suffixed definitions mirror the
computeds statement by statement, using the throwing access getPropE
exactly where the source uses plain access and optChain where it uses
optional chaining; claim C1 proves they never throw and agree with the
total definitions above.
-/

/-- Throw-aware array map: the callback runs left to right and the
first throw propagates. -/
def mapME (f : α → Except String β) : List α → Except String (List β)
  | [] => pure []
  | x :: xs => do
    let y ← f x
    let ys ← mapME f xs
    pure (y :: ys)

/-- Plain property access v.k: throws on null and undefined. -/
def getPropE (v : JsVal) (k : String) : Except String JsVal :=
  match v with
  | .undefined => .error "TypeError"
  | .jnull => .error "TypeError"
  | _ => .ok (v.getProp k)

/-- Throw-aware gradeLeaderboard. -/
def gradeLeaderboardE (d : JsVal) : Except String JsVal := do
  let value := optChain (payload d) "gradeLeaderboard"
  pure (if !value.isFalsy ∧ value.typeofObject then value else .jnull)

/-- Throw-aware topIdentities. -/
def topIdentitiesE (d : JsVal) : Except String (List JsVal) := do
  let gl ← gradeLeaderboardE d
  pure (match optChain gl "topIdentities" with
    | .arr rows => rows
    | _ => [])

/-- Throw-aware identityLookup; value.length is read only after the
Array.isArray test, so array length access needs no throwing model. -/
def identityLookupE (d : JsVal) : Except String (List JsVal) := do
  let gl ← gradeLeaderboardE d
  match optChain gl "identityLookup" with
  | .arr rows =>
    if 0 < rows.length then pure rows else topIdentitiesE d
  | _ => topIdentitiesE d

/-- Throw-aware topFlips. -/
def topFlipsE (d : JsVal) : Except String (List JsVal) := do
  let gl ← gradeLeaderboardE d
  pure (match optChain gl "topFlips" with
    | .arr rows => rows
    | _ => [])

/-- Throw-aware progressPayload. -/
def progressPayloadE (d : JsVal) : Except String JsVal := do
  let value := optChain (payload d) "progress"
  pure (if !value.isFalsy ∧ value.typeofObject then value else .jnull)

/-- Throw-aware point callback: point.timestamp, point.flipsSeen and
point.uniqueAuthors are plain accesses guarded by the truthy-object
test. -/
def normalizePointE (point : JsVal) : Except String (Option ProgressPoint) :=
  if point.isFalsy ∨ !point.typeofObject then pure none
  else do
    let ts ← getPropE point "timestamp"
    match ts with
    | .str ts => do
      let rawFlips ← getPropE point "flipsSeen"
      let rawAuthors ← getPropE point "uniqueAuthors"
      let flipsSeen := jsToNumber (nullishOr rawFlips (.num (.fin 0)))
      let uniqueAuthors := jsToNumber (nullishOr rawAuthors (.num (.fin 0)))
      pure (some
        { timestamp := ts
          flipsSeen := if flipsSeen.isFinite then flipsSeen.toQ else 0
          uniqueAuthors := if uniqueAuthors.isFinite then uniqueAuthors.toQ else 0 })
    | _ => pure none

/-- Throw-aware points pipeline. -/
def pointsOfListE (xs : List JsVal) : Except String (List ProgressPoint) := do
  let opts ← mapME normalizePointE xs
  pure (opts.filterMap id)

/-- Throw-aware progressCurrentSeries: value.epoch and value.points are
plain accesses guarded by the truthy-object test. -/
def progressCurrentSeriesE (d : JsVal) : Except String (Option ProgressEpochSeries) := do
  let pp ← progressPayloadE d
  let value := optChain (optChain pp "series") "currentEpoch"
  if value.isFalsy ∨ !value.typeofObject then pure none
  else do
    let rawEpoch ← getPropE value "epoch"
    let epoch := match rawEpoch with
      | .num n => n
      | _ => JSNum.fin 0
    let rawPoints ← getPropE value "points"
    let points ← match rawPoints with
      | .arr xs => pointsOfListE xs
      | _ => pure []
    pure (some { epoch := epoch, points := points })

/-- Throw-aware previous-series callback. -/
def normalizePrevSeriesE (series : JsVal) : Except String (Option ProgressEpochSeries) :=
  if series.isFalsy ∨ !series.typeofObject then pure none
  else do
    let rawEpoch ← getPropE series "epoch"
    let epoch := jsToNumber (nullishOr rawEpoch (.num (.fin 0)))
    if !epoch.isFinite ∨ epoch.toQ ≤ 0 then pure none
    else do
      let rawPoints ← getPropE series "points"
      let points ← match rawPoints with
        | .arr xs => pointsOfListE xs
        | _ => pure []
      pure (some { epoch := epoch, points := points })

/-- Throw-aware progressPreviousSeries. -/
def progressPreviousSeriesE (d : JsVal) : Except String (List ProgressEpochSeries) := do
  let pp ← progressPayloadE d
  match optChain (optChain pp "series") "previousEpochs" with
  | .arr rows => do
    let opts ← mapME normalizePrevSeriesE rows
    pure ((opts.filterMap id).take 2)
  | _ => pure []

/-- Throw-aware progressMinRefresh. -/
def progressMinRefreshE (d : JsVal) : Except String ℚ := do
  let pp ← progressPayloadE d
  pure (match optChain pp "minRefreshSeconds" with
    | .num (.fin q) => q
    | _ => 30)

/-- The whole normalizer pipeline of claim C1, throw-aware: every
computed the section derives from the snapshot, in source order. -/
def normalizerE (d : JsVal) :
    Except String
      (JsVal × List JsVal × List JsVal × List JsVal ×
        Option ProgressEpochSeries × List ProgressEpochSeries × ℚ) := do
  let gl ← gradeLeaderboardE d
  let ti ← topIdentitiesE d
  let il ← identityLookupE d
  let tf ← topFlipsE d
  let cs ← progressCurrentSeriesE d
  let ps ← progressPreviousSeriesE d
  let mr ← progressMinRefreshE d
  pure (gl, ti, il, tf, cs, ps, mr)

/-- The total normalizer pipeline: the same tuple from the non-throwing
definitions. -/
def normalizer (d : JsVal) :
    JsVal × List JsVal × List JsVal × List JsVal ×
      Option ProgressEpochSeries × List ProgressEpochSeries × ℚ :=
  (gradeLeaderboard d, topIdentities d, identityLookup d, topFlips d,
    progressCurrentSeries d, progressPreviousSeries d, progressMinRefresh d)

/-!
Address lookup and validation.  The trim and toLowerCase builtins are
modelled by String.trim and String.toLower (they agree on the ASCII
inputs an address field can hold).
-/

/-- The normalizedSearchAddress computed: trim then lowercase. -/
def normalizedSearchAddress (input : String) : String :=
  jsToLower (jsTrim input)

/-- The hasSearchValue computed. -/
def hasSearchValue (input : String) : Bool :=
  0 < (normalizedSearchAddress input).length

/-- The regex 0x[a-f0-9]-40-times anchored at both ends
(addressPattern of the source). -/
def addressPatternTest (s : String) : Bool :=
  match s.data with
  | '0' :: 'x' :: rest =>
    rest.length = 40 ∧ rest.all (fun c => c.isDigit ∨ (97 ≤ c.toNat ∧ c.toNat ≤ 102))
  | _ => false

/-- The isSearchAddressValid computed: vacuously true on empty input. -/
def isSearchAddressValid (input : String) : Bool :=
  if !hasSearchValue input then true
  else addressPatternTest (normalizedSearchAddress input)

/-- Strict equality row.address === address for a string address. -/
def rowAddressEq (row : JsVal) (address : String) : Bool :=
  match row.getProp "address" with
  | .str s => s = address
  | _ => false

/-- The foundIdentity computed: the first row of the lookup sequence
whose address field strictly equals the normalized input. -/
def foundIdentity (input : String) (lookup : List JsVal) : Option JsVal :=
  if !hasSearchValue input ∨ !isSearchAddressValid input then none
  else lookup.find? (fun row => rowAddressEq row (normalizedSearchAddress input))

/-- The showSearchNotFound computed. -/
def showSearchNotFound (input : String) (lookup : List JsVal) : Bool :=
  hasSearchValue input ∧ isSearchAddressValid input ∧
    (foundIdentity input lookup).isNone

/-- The four visible outcomes of the lookup panel. -/
inductive SearchState where
  | noQuery : SearchState
  | invalidFormat : SearchState
  | found : JsVal → SearchState
  | notFound : SearchState
deriving Repr

/-- The v-if chain of the lookup panel in template order; none models
the chain falling through with nothing rendered. -/
def uiSearchState (input : String) (lookup : List JsVal) : Option SearchState :=
  if !hasSearchValue input then some .noQuery
  else if !isSearchAddressValid input then some .invalidFormat
  else
    match foundIdentity input lookup with
    | some row => some (.found row)
    | none =>
      if showSearchNotFound input lookup then some .notFound else none

/-!
Freshness clock.
-/

/-- The formatDuration helper: clamp below at 0, floor to whole
seconds, then unpadded days and zero-padded hours, minutes, seconds. -/
def formatDuration (totalSeconds : ℚ) : String :=
  let safe : ℕ := (max 0 (Int.floor totalSeconds)).toNat
  let days := safe / 86400
  let hours := (safe % 86400) / 3600
  let minutes := (safe % 3600) / 60
  let seconds := safe % 60
  toString days ++ "d " ++ pad2 hours ++ "h " ++ pad2 minutes ++ "m " ++ pad2 seconds ++ "s"

/-- The nextSessionTime computed: payload.value?.session?.nextValidationTime
when it is a string. -/
def nextSessionTime (d : JsVal) : Option String :=
  match optChain (optChain (payload d) "session") "nextValidationTime" with
  | .str s => some s
  | _ => none

/-- The secondsUntilNextSession computed, as a function of the snapshot
and the ticking clock value nowMs (milliseconds): null when the instant
is missing or unparsable, else the floored difference in seconds. -/
def secondsUntilNextSession (d : JsVal) (nowMs : ℚ) : Option ℤ :=
  match nextSessionTime d with
  | none => none
  | some iso =>
    match dateParse iso with
    | .fin ms => some (Int.floor ((ms - nowMs) / 1000))
    | _ => none

/-- The nextSessionCountdownLabel computed. -/
def nextSessionCountdownLabel (d : JsVal) (nowMs : ℚ) : String :=
  match secondsUntilNextSession d nowMs with
  | none => "Unavailable"
  | some seconds =>
    if seconds ≤ 0 then "Session started" else formatDuration (seconds : ℚ)

/-!
Chart geometry.
-/

/-- A derived chart point (type ChartPoint of the source). -/
structure ChartPoint where
  elapsedSeconds : ℚ
  value : ℚ
deriving Repr

/-- A trailing chart line (type ChartLine of the source). -/
structure ChartLine where
  epoch : JSNum
  path : String
  opacity : ℚ
deriving Repr

/-- The CHART_WIDTH constant. -/
def CHART_WIDTH : ℚ := 720

/-- The CHART_HEIGHT constant. -/
def CHART_HEIGHT : ℚ := 220

/-- The toChartPoints helper: empty input stays empty; a first point
with an unparsable timestamp empties the whole series; otherwise each
point with a parsable timestamp becomes elapsed seconds from the first
point (clamped at 0) paired with the selected metric, unparsable points
being dropped. -/
def toChartPoints (points : List ProgressPoint) (selector : ProgressPoint → ℚ) :
    List ChartPoint :=
  match points with
  | [] => []
  | p0 :: _ =>
    match dateParse p0.timestamp with
    | .fin baseTime =>
      points.filterMap (fun point =>
        match dateParse point.timestamp with
        | .fin ts => some { elapsedSeconds := max 0 ((ts - baseTime) / 1000), value := selector point }
        | _ => none)
    | _ => []

/-- The command emitted for one chart point of a multi-point series. -/
def pointCommand (isFirst : Bool) (point : ChartPoint)
    (safeMaxElapsed : ℚ) (safeMax : ℚ) : String :=
  let x := (point.elapsedSeconds / safeMaxElapsed) * CHART_WIDTH
  let y := CHART_HEIGHT - (point.value / safeMax) * CHART_HEIGHT
  (if isFirst then "M" else "L") ++ toFixed2 x ++ " " ++ toFixed2 y

/-- The buildLinePath helper. -/
def buildLinePath (points : List ChartPoint) (maxElapsedSeconds : ℚ) (maxValue : ℚ) :
    String :=
  match points with
  | [] => ""
  | [p] =>
    let safeMax := if 0 < maxValue then maxValue else 1
    let y := CHART_HEIGHT - (p.value / safeMax) * CHART_HEIGHT
    "M0 " ++ toFixed2 y ++ " L720 " ++ toFixed2 y
  | _ =>
    let safeMaxElapsed := if 0 < maxElapsedSeconds then maxElapsedSeconds else 1
    let safeMax := if 0 < maxValue then maxValue else 1
    String.intercalate " "
      (points.enum.map (fun ip => pointCommand (ip.1 = 0) ip.2 safeMaxElapsed safeMax))

/-- The record returned by buildMetricChart. -/
structure MetricChart where
  currentPath : String
  trailingPaths : List ChartLine
  maxValue : ℚ
  maxElapsedSeconds : ℚ
  latestValue : ℚ
deriving Repr

/-- Math.max(1, ...values) over the finite chart values. -/
def jsMaxFrom1 (values : List ℚ) : ℚ :=
  values.foldl max 1

/-- The buildMetricChart helper, as a function of the already-selected
series (current and previous) and the metric selector. -/
def buildMetricChart (currentSeries : Option ProgressEpochSeries)
    (previousSeries : List ProgressEpochSeries)
    (selector : ProgressPoint → ℚ) : MetricChart :=
  let currentPoints := toChartPoints (match currentSeries with
    | some s => s.points
    | none => []) selector
  let trailingSeries := previousSeries.map (fun series =>
    (series.epoch, toChartPoints series.points selector))
  let allSeries := currentPoints :: trailingSeries.map (fun series => series.2)
  let maxElapsedSeconds :=
    jsMaxFrom1 (allSeries.flatMap (fun series => series.map (fun point => point.elapsedSeconds)))
  let maxValue :=
    jsMaxFrom1 (allSeries.flatMap (fun series => series.map (fun point => point.value)))
  let trailingPaths : List ChartLine := trailingSeries.enum.map (fun iSeries =>
    { epoch := iSeries.2.1
      path := buildLinePath iSeries.2.2 maxElapsedSeconds maxValue
      opacity := if iSeries.1 = 0 then 45 / 100 else 24 / 100 })
  let currentPath := buildLinePath currentPoints maxElapsedSeconds maxValue
  let latestValue := match currentPoints.getLast? with
    | some p => p.value
    | none => 0
  { currentPath := currentPath
    trailingPaths := trailingPaths
    maxValue := maxValue
    maxElapsedSeconds := maxElapsedSeconds
    latestValue := latestValue }

/-!
Spec-side definitions.  The definitions below follow the words of the
specification (not the source); the claim theorems compare the source
embedding against them.
-/

/-- Object-shaped in the JS sense used by the guards: a truthy value
whose typeof is "object", i.e. an array or a plain object. -/
def isObjectLike (v : JsVal) : Bool :=
  !v.isFalsy ∧ v.typeofObject

/-- Whether the timestamp field of a candidate point is a string. -/
def tsIsString (v : JsVal) : Bool :=
  match v.getProp "timestamp" with
  | .str _ => true
  | _ => false

/-- Spec: a candidate point is kept iff it is object-shaped and its
timestamp field is a string. -/
def specKeptPoint (v : JsVal) : Bool :=
  isObjectLike v ∧ tsIsString v

/-- Spec: a counter field coerces through Number (with nullish default
0); a non-finite coercion is replaced by 0. -/
def coerceCounter (v : JsVal) : ℚ :=
  let n := jsToNumber (nullishOr v (.num (.fin 0)))
  if n.isFinite then n.toQ else 0

/-- Spec: the normalized form of a kept point (junk timestamp "" on
dropped candidates, which specKeptPoint excludes). -/
def specPointOf (v : JsVal) : ProgressPoint :=
  { timestamp := match v.getProp "timestamp" with
      | .str s => s
      | _ => ""
    flipsSeen := coerceCounter (v.getProp "flipsSeen")
    uniqueAuthors := coerceCounter (v.getProp "uniqueAuthors") }

/-- Spec: the Number-coerced epoch of a previous-epochs entry. -/
def specPrevEpoch (v : JsVal) : JSNum :=
  jsToNumber (nullishOr (v.getProp "epoch") (.num (.fin 0)))

/-- Spec: a previous-epochs entry is kept iff it is object-shaped and
its coerced epoch is a finite positive number. -/
def specKeptPrev (v : JsVal) : Bool :=
  isObjectLike v ∧ (specPrevEpoch v).isFinite ∧ 0 < (specPrevEpoch v).toQ

/-- Spec: the normalized form of a kept previous-epochs entry. -/
def specPrevOf (v : JsVal) : ProgressEpochSeries :=
  { epoch := specPrevEpoch v
    points := match v.getProp "points" with
      | .arr xs => pointsOfList xs
      | _ => [] }

/-- Spec: the move/line command list of a multi-point series, one
command per point in input order, M first then L. -/
def lineCommands (points : List ChartPoint) (maxElapsedSeconds : ℚ) (maxValue : ℚ) :
    List String :=
  let safeMaxElapsed := if 0 < maxElapsedSeconds then maxElapsedSeconds else 1
  let safeMax := if 0 < maxValue then maxValue else 1
  points.enum.map (fun ip => pointCommand (ip.1 = 0) ip.2 safeMaxElapsed safeMax)

/-- Spec: every elapsed-seconds value of all series rendered together
(current first, then the trailing series). -/
def allElapsedValues (currentPoints : List ChartPoint)
    (trailingPoints : List (List ChartPoint)) : List ℚ :=
  (currentPoints :: trailingPoints).flatMap (fun series =>
    series.map (fun point => point.elapsedSeconds))

/-- Spec: every metric value of all series rendered together. -/
def allMetricValues (currentPoints : List ChartPoint)
    (trailingPoints : List (List ChartPoint)) : List ℚ :=
  (currentPoints :: trailingPoints).flatMap (fun series =>
    series.map (fun point => point.value))

/-- The chart points of the current series as buildMetricChart computes
them. -/
def currentChartPoints (currentSeries : Option ProgressEpochSeries)
    (selector : ProgressPoint → ℚ) : List ChartPoint :=
  toChartPoints (match currentSeries with
    | some s => s.points
    | none => []) selector

/-!
Concrete sample values used by witnesses.
-/

/-- A sample identity row. -/
def lookupSampleRow : JsVal :=
  JsVal.obj [("rank", JsVal.num (JSNum.fin 1)), ("address", JsVal.str "0xaa")]

/-- A snapshot with a nonempty identityLookup array. -/
def lookupSampleSnap : JsVal :=
  JsVal.obj [("data", JsVal.obj [("gradeLeaderboard", JsVal.obj
    [("identityLookup", JsVal.arr [lookupSampleRow]),
     ("topIdentities", JsVal.arr [])])])]

/-- A snapshot whose identityLookup array is present but empty. -/
def emptyLookupSnap : JsVal :=
  JsVal.obj [("data", JsVal.obj [("gradeLeaderboard", JsVal.obj
    [("identityLookup", JsVal.arr []),
     ("topIdentities", JsVal.arr [JsVal.str "row"])])])]

/-- A snapshot whose current-epoch series carries no epoch field. -/
def badCurrentSnap : JsVal :=
  JsVal.obj [("data", JsVal.obj [("progress", JsVal.obj [("series", JsVal.obj
    [("currentEpoch", JsVal.obj [])])])])]

/-- A snapshot whose only previous-epochs entry has the fractional
epoch 3/2. -/
def fracPrevSnap : JsVal :=
  JsVal.obj [("data", JsVal.obj [("progress", JsVal.obj [("series", JsVal.obj
    [("previousEpochs", JsVal.arr [JsVal.obj [("epoch", JsVal.num (JSNum.fin (mkRat 3 2)))]])])])])]

/-- A sample lookup row whose address is 0x followed by 40 letters a. -/
def witnessAddrRow : JsVal :=
  JsVal.obj [("address", JsVal.str "0xaaaaaaaaaaaaaaaaaaaaaaaaaaaaaaaaaaaaaaaa"),
    ("rank", JsVal.num (JSNum.fin 1))]

/-- A snapshot whose next validation instant is 90 seconds after the
Unix epoch. -/
def countdownSnap : JsVal :=
  JsVal.obj [("data", JsVal.obj [("session", JsVal.obj
    [("nextValidationTime", JsVal.str "1970-01-01T00:01:30Z")])])]

/-- A snapshot whose next validation instant does not parse. -/
def noSessionSnap : JsVal :=
  JsVal.obj [("data", JsVal.obj [("session", JsVal.obj
    [("nextValidationTime", JsVal.str "tomorrow-ish")])])]

/-- A normalized point whose retained timestamp does not parse. -/
def wPointBad : ProgressPoint := { timestamp := "nope", flipsSeen := 2, uniqueAuthors := 1 }

/-- A normalized point at the Unix epoch. -/
def wPointA : ProgressPoint :=
  { timestamp := "1970-01-01T00:00:00Z", flipsSeen := 3, uniqueAuthors := 1 }

/-- A normalized point 90 seconds after the Unix epoch. -/
def wPointB : ProgressPoint :=
  { timestamp := "1970-01-01T00:01:30Z", flipsSeen := 5, uniqueAuthors := 2 }

/-!
Helper lemmas.
-/

/-- Plain property access does not throw on object-like receivers. -/
theorem getPropE_ok (v : JsVal) (hv : isObjectLike v = true) (k : String) :
    getPropE v k = .ok (v.getProp k) := by
  cases v <;> simp_all [isObjectLike, JsVal.isFalsy, JsVal.typeofObject, getPropE]

/-- The throw-aware point callback never throws and agrees with the
total one. -/
theorem normalizePointE_ok (p : JsVal) : normalizePointE p = .ok (normalizePoint p) := by
  unfold normalizePointE normalizePoint
  by_cases h : p.isFalsy = true ∨ p.typeofObject = false
  · simp [h]; rfl
  · have hv : isObjectLike p = true := by
      simp [isObjectLike]
      push_neg at h
      simp [h.1, h.2]
    simp only [if_neg h]
    rw [getPropE_ok p hv]
    cases hts : p.getProp "timestamp" <;>
      simp [hts, getPropE_ok p hv, if_neg h, bind, Except.bind, pure, Except.pure, Except.map]

/-- The throw-aware points pipeline never throws and agrees with the
total one. -/
theorem pointsOfListE_ok (xs : List JsVal) : pointsOfListE xs = .ok (pointsOfList xs) := by
  unfold pointsOfListE pointsOfList
  induction xs with
  | nil => rfl
  | cons x xs ih =>
    simp only [mapME, normalizePointE_ok, bind, Except.bind] at ih ⊢
    cases hm : mapME normalizePointE xs with
    | error e => rw [hm] at ih; simp [pure, Except.pure] at ih
    | ok l =>
      rw [hm] at ih
      simp [pure, Except.pure] at ih ⊢
      simp [ih, List.filterMap_cons]

/-- The throw-aware topIdentities never throws. -/
theorem topIdentitiesE_ok (d : JsVal) : topIdentitiesE d = .ok (topIdentities d) := rfl

/-- The throw-aware identityLookup never throws. -/
theorem identityLookupE_ok (d : JsVal) : identityLookupE d = .ok (identityLookup d) := by
  unfold identityLookupE identityLookup
  have hgl : gradeLeaderboardE d = .ok (gradeLeaderboard d) := rfl
  rw [hgl]
  simp only [bind, Except.bind]
  cases h : optChain (gradeLeaderboard d) "identityLookup"
  case arr rows =>
    by_cases hl : 0 < rows.length <;> simp [hl, topIdentitiesE_ok d, pure, Except.pure]
  all_goals simp [topIdentitiesE_ok d]

/-- The throw-aware progressPayload never throws. -/
theorem progressPayloadE_ok (d : JsVal) : progressPayloadE d = .ok (progressPayload d) := rfl

/-- The throw-aware progressCurrentSeries never throws and agrees with
the total one. -/
theorem progressCurrentSeriesE_ok (d : JsVal) :
    progressCurrentSeriesE d = .ok (progressCurrentSeries d) := by
  unfold progressCurrentSeriesE progressCurrentSeries
  rw [progressPayloadE_ok]
  simp only [bind, Except.bind]
  by_cases h : (optChain (optChain (progressPayload d) "series") "currentEpoch").isFalsy = true ∨
      (!(optChain (optChain (progressPayload d) "series") "currentEpoch").typeofObject) = true
  · rw [if_pos h, if_pos h]
    rfl
  · have hv : isObjectLike (optChain (optChain (progressPayload d) "series") "currentEpoch") = true := by
      simp [isObjectLike]
      push_neg at h
      simpa using And.intro h.1 h.2
    rw [if_neg h, if_neg h]
    rw [getPropE_ok _ hv]
    rw [getPropE_ok _ hv]
    cases hp : (optChain (optChain (progressPayload d) "series") "currentEpoch").getProp "points" <;>
      simp [hp, pointsOfListE_ok, bind, Except.bind, pure, Except.pure]

/-- The throw-aware topFlips never throws. -/
theorem topFlipsE_ok (d : JsVal) : topFlipsE d = .ok (topFlips d) := rfl

/-- The throw-aware progressMinRefresh never throws. -/
theorem progressMinRefreshE_ok (d : JsVal) :
    progressMinRefreshE d = .ok (progressMinRefresh d) := rfl

/-- The throw-aware previous-series callback never throws and agrees
with the total one. -/
theorem normalizePrevSeriesE_ok (s : JsVal) :
    normalizePrevSeriesE s = .ok (normalizePrevSeries s) := by
  unfold normalizePrevSeriesE normalizePrevSeries
  by_cases h : s.isFalsy = true ∨ (!s.typeofObject) = true
  · rw [if_pos h, if_pos h]; rfl
  · have hv : isObjectLike s = true := by
      simp [isObjectLike]
      push_neg at h
      simpa using And.intro h.1 h.2
    rw [if_neg h, if_neg h]
    rw [getPropE_ok _ hv]
    simp only [bind, Except.bind]
    by_cases he : (!(jsToNumber (nullishOr (s.getProp "epoch") (JsVal.num (JSNum.fin 0)))).isFinite) = true ∨
        (jsToNumber (nullishOr (s.getProp "epoch") (JsVal.num (JSNum.fin 0)))).toQ ≤ 0
    · rw [if_pos he, if_pos he]; rfl
    · rw [if_neg he, if_neg he]
      rw [getPropE_ok _ hv]
      cases hp : s.getProp "points" <;>
        simp [hp, pointsOfListE_ok, bind, Except.bind, pure, Except.pure]

/-- The throw-aware map of the previous-series callback never throws. -/
theorem mapME_prevSeries (rows : List JsVal) :
    mapME normalizePrevSeriesE rows = .ok (rows.map normalizePrevSeries) := by
  induction rows with
  | nil => rfl
  | cons x xs ih =>
    simp only [mapME, normalizePrevSeriesE_ok, bind, Except.bind, ih, List.map_cons]
    rfl

/-- The throw-aware progressPreviousSeries never throws and agrees with
the total one. -/
theorem progressPreviousSeriesE_ok (d : JsVal) :
    progressPreviousSeriesE d = .ok (progressPreviousSeries d) := by
  unfold progressPreviousSeriesE progressPreviousSeries prevSeriesOfList
  rw [progressPayloadE_ok]
  simp only [bind, Except.bind]
  cases hr : optChain (optChain (progressPayload d) "series") "previousEpochs"
  case arr rows => simp [mapME_prevSeries, pure, Except.pure]
  all_goals rfl

/-- C1: however malformed the snapshot value (null, non-object payload,
non-array lists, non-object list elements, non-numeric fields), the
entity normalizer — the computeds gradeLeaderboard, topIdentities,
identityLookup, topFlips, progressCurrentSeries, progressPreviousSeries
and progressMinRefresh, run under the throw-aware semantics in which
plain property access throws on null and undefined — never throws: it
always returns ok, with exactly the typed entities of the total
normalizer, so invalid list elements are dropped and invalid optional
fields are treated as absent rather than propagated as an error. -/
theorem claim1_normalizer_never_throws (d : JsVal) : normalizerE d = .ok (normalizer d) := by
  unfold normalizerE normalizer
  have h1 : gradeLeaderboardE d = .ok (gradeLeaderboard d) := rfl
  rw [h1]
  simp only [bind, Except.bind]
  rw [topIdentitiesE_ok, identityLookupE_ok, topFlipsE_ok, progressCurrentSeriesE_ok,
    progressPreviousSeriesE_ok, progressMinRefreshE_ok]
  rfl

/-- The point callback keeps exactly the spec-kept candidates and maps
them to their spec normal form. -/
theorem normalizePoint_spec (p : JsVal) :
    normalizePoint p = if specKeptPoint p then some (specPointOf p) else none := by
  unfold normalizePoint specKeptPoint specPointOf isObjectLike tsIsString coerceCounter
  cases hf : p.isFalsy <;> cases hto : p.typeofObject <;> simp [hf, hto] <;>
    cases hts : p.getProp "timestamp" <;> simp [hts]

/-- A filterMap by a guarded some is a filter followed by a map. -/
theorem filterMapIf (k : α → Bool) (e : α → β) (xs : List α) :
    xs.filterMap (fun a => if k a then some (e a) else none) = (xs.filter k).map e := by
  induction xs with
  | nil => rfl
  | cons x xs ih =>
    by_cases hk : k x <;> simp [List.filterMap_cons, List.filter_cons, hk, ih]

/-- The points pipeline is the filter of spec-kept candidates followed
by the map to spec normal forms. -/
theorem pointsOfList_spec (xs : List JsVal) :
    pointsOfList xs = (xs.filter specKeptPoint).map specPointOf := by
  unfold pointsOfList
  rw [List.filterMap_map]
  calc xs.filterMap (id ∘ normalizePoint)
      = xs.filterMap (fun p => if specKeptPoint p then some (specPointOf p) else none) := by
        apply List.filterMap_congr
        intro p _
        simpa using normalizePoint_spec p
    _ = (xs.filter specKeptPoint).map specPointOf := filterMapIf _ _ _

/-- C2: the point normalizer keeps exactly the object-shaped elements
whose timestamp field is a string (dropping all others entirely), in
input order; in every kept point a flipsSeen or uniqueAuthors value
that does not coerce to a finite number is replaced by 0. -/
theorem claim2_point_normalization (xs : List JsVal) :
    pointsOfList xs = (xs.filter specKeptPoint).map specPointOf ∧
    (∀ p : JsVal, specKeptPoint p = (isObjectLike p && tsIsString p)) ∧
    (∀ p : JsVal,
      (jsToNumber (nullishOr (p.getProp "flipsSeen") (.num (.fin 0)))).isFinite = false →
        (specPointOf p).flipsSeen = 0) ∧
    (∀ p : JsVal,
      (jsToNumber (nullishOr (p.getProp "uniqueAuthors") (.num (.fin 0)))).isFinite = false →
        (specPointOf p).uniqueAuthors = 0) := by
  refine ⟨pointsOfList_spec xs, ?_, ?_, ?_⟩
  · intro p
    simp [specKeptPoint, Bool.and_eq_true]
  · intro p hf
    simp [specPointOf, coerceCounter, hf]
  · intro p hf
    simp [specPointOf, coerceCounter, hf]

/-- Witness for C2: a point with non-numeric flipsSeen is kept with 0,
a numeric list element is dropped. -/
theorem claim2_point_normalization_witness :
    pointsOfList [JsVal.obj [("timestamp", JsVal.str "t"), ("flipsSeen", JsVal.str "abc")],
        JsVal.num (JSNum.fin 3)] =
      [{ timestamp := "t", flipsSeen := 0, uniqueAuthors := 0 }] ∧
    (specPointOf (JsVal.obj [("timestamp", JsVal.str "t"), ("flipsSeen", JsVal.str "abc")])).flipsSeen
      = 0 := by
  have h := claim2_point_normalization
    [JsVal.obj [("timestamp", JsVal.str "t"), ("flipsSeen", JsVal.str "abc")],
      JsVal.num (JSNum.fin 3)]
  refine ⟨by rw [h.1]; rfl, h.2.2.1 _ (by rfl)⟩

/-- The previous-series callback keeps exactly the spec-kept entries
and maps them to their spec normal form. -/
theorem normalizePrevSeries_spec (s : JsVal) :
    normalizePrevSeries s = if specKeptPrev s then some (specPrevOf s) else none := by
  unfold normalizePrevSeries specKeptPrev specPrevOf isObjectLike specPrevEpoch
  cases hf : s.isFalsy <;> cases hto : s.typeofObject <;> simp [hf, hto] <;>
    by_cases he : (jsToNumber (nullishOr (s.getProp "epoch") (JsVal.num (JSNum.fin 0)))).isFinite = true <;>
      simp [he] <;>
      by_cases hq : (jsToNumber (nullishOr (s.getProp "epoch") (JsVal.num (JSNum.fin 0)))).toQ ≤ 0 <;>
        simp [hq, not_le, lt_iff_not_ge]

/-- C7: the previous-epochs normalizer keeps only entries whose coerced
epoch is a finite positive number, truncates to the first 2 entries
after that filtering (never before, and without re-sorting: the result
is the order-preserving filter-then-map, then take 2), and its result
never has more than 2 entries. -/
theorem claim7_previous_epochs (rows : List JsVal) :
    prevSeriesOfList rows = (((rows.filter specKeptPrev).map specPrevOf).take 2) ∧
    (prevSeriesOfList rows).length ≤ 2 ∧
    (∀ s : JsVal, specKeptPrev s =
      (isObjectLike s && ((specPrevEpoch s).isFinite && decide (0 < (specPrevEpoch s).toQ)))) := by
  have hmain : prevSeriesOfList rows = (((rows.filter specKeptPrev).map specPrevOf).take 2) := by
    unfold prevSeriesOfList
    rw [List.filterMap_map]
    have : rows.filterMap (id ∘ normalizePrevSeries) =
        (rows.filter specKeptPrev).map specPrevOf := by
      calc rows.filterMap (id ∘ normalizePrevSeries)
          = rows.filterMap (fun s => if specKeptPrev s then some (specPrevOf s) else none) := by
            apply List.filterMap_congr
            intro s _
            simpa using normalizePrevSeries_spec s
        _ = (rows.filter specKeptPrev).map specPrevOf := filterMapIf _ _ _
    rw [this]
  refine ⟨hmain, ?_, ?_⟩
  · rw [hmain]
    simpa using List.length_take_le 2 _
  · intro s
    simp [specKeptPrev, Bool.and_eq_true]

/-- C3: the derived identityLookup equals topIdentities exactly in the
fallback cases — source field absent, not an array, or an empty array —
and otherwise equals the source array verbatim, length preserved. -/
theorem claim3_identity_lookup_fallback (d : JsVal) :
    (∀ rows : List JsVal, optChain (gradeLeaderboard d) "identityLookup" = .arr rows →
      (rows = [] → identityLookup d = topIdentities d) ∧
      (rows ≠ [] → identityLookup d = rows ∧ (identityLookup d).length = rows.length)) ∧
    ((∀ rows : List JsVal, optChain (gradeLeaderboard d) "identityLookup" ≠ .arr rows) →
      identityLookup d = topIdentities d) := by
  constructor
  · intro rows hr
    constructor
    · intro he
      subst he
      simp [identityLookup, hr]
    · intro hne
      have hl : 0 < rows.length := List.length_pos.mpr hne
      simp [identityLookup, hr, hl]
  · intro hnone
    unfold identityLookup
    cases hr : optChain (gradeLeaderboard d) "identityLookup"
    case arr rows => exact absurd hr (hnone rows)
    all_goals rfl

/-- Witness for C3: a nonempty source array is used verbatim; an empty
source array falls back to topIdentities. -/
theorem claim3_identity_lookup_fallback_witness :
    identityLookup lookupSampleSnap = [lookupSampleRow] ∧
    identityLookup emptyLookupSnap = topIdentities emptyLookupSnap := by
  constructor
  · exact ((claim3_identity_lookup_fallback lookupSampleSnap).1 [lookupSampleRow] rfl).2
      (List.cons_ne_nil _ _) |>.1
  · exact ((claim3_identity_lookup_fallback emptyLookupSnap).1 [] rfl).1 rfl

/-- Counterexample to C8: the current-series normalizer defaults a
missing epoch to 0, which is not positive, and the previous-series
filter keeps the fractional epoch 3/2, which is not an integer — so not
every normalized series has a positive integer epoch. -/
theorem claim8_counterexample :
    progressCurrentSeries badCurrentSnap = some { epoch := JSNum.fin 0, points := [] } ∧
    ¬ (0 : ℚ) < 0 ∧
    progressPreviousSeries fracPrevSnap = [{ epoch := JSNum.fin (mkRat 3 2), points := [] }] ∧
    (∀ n : ℤ, JSNum.fin (mkRat 3 2) ≠ JSNum.fin (n : ℚ)) := by
  refine ⟨rfl, by norm_num, rfl, ?_⟩
  intro n h
  have hq : mkRat 3 2 = (n : ℚ) := by injection h
  have hden : (mkRat 3 2).den = 1 := by rw [hq]; exact Rat.den_intCast n
  simp [show (mkRat 3 2).den = 2 from by decide] at hden

/-- C8 as amended: every series produced by progressPreviousSeries has
a finite, strictly positive (not necessarily integer) epoch; the
current-epoch series carries whatever number the snapshot holds, with
default 0, and so need not be positive. -/
theorem claim8_amended_positive_epochs (d : JsVal) :
    ∀ s ∈ progressPreviousSeries d, ∃ q : ℚ, s.epoch = .fin q ∧ 0 < q := by
  intro s hs
  unfold progressPreviousSeries at hs
  cases hr : optChain (optChain (progressPayload d) "series") "previousEpochs"
  all_goals rw [hr] at hs
  case arr rows =>
    unfold prevSeriesOfList at hs
    have hs3 : s ∈ (rows.map normalizePrevSeries).filterMap id := List.mem_of_mem_take hs
    rw [List.filterMap_map] at hs3
    rcases List.mem_filterMap.mp hs3 with ⟨a, _, ha⟩
    simp only [Function.comp, id] at ha
    rw [normalizePrevSeries_spec] at ha
    by_cases hk : specKeptPrev a = true
    · rw [if_pos hk, Option.some_inj] at ha
      subst ha
      rcases (by simpa [specKeptPrev, Bool.and_eq_true] using hk :
        isObjectLike a = true ∧ (specPrevEpoch a).isFinite = true ∧ 0 < (specPrevEpoch a).toQ)
        with ⟨_, hf, hpos⟩
      cases he : specPrevEpoch a with
      | fin q =>
        refine ⟨q, ?_, ?_⟩
        · show specPrevEpoch a = JSNum.fin q
          exact he
        · rw [he] at hpos
          simpa [JSNum.toQ] using hpos
      | nan => rw [he] at hf; simp [JSNum.isFinite] at hf
      | inf => rw [he] at hf; simp [JSNum.isFinite] at hf
      | ninf => rw [he] at hf; simp [JSNum.isFinite] at hf
    · rw [if_neg hk] at ha
      exact absurd ha (by simp)
  all_goals simp at hs

/-- Witness for the amended C8: the kept fractional-epoch series indeed
has a positive epoch. -/
theorem claim8_amended_positive_epochs_witness :
    ∃ q : ℚ, (ProgressEpochSeries.mk (JSNum.fin (mkRat 3 2)) []).epoch = .fin q ∧ 0 < q :=
  claim8_amended_positive_epochs fracPrevSnap ⟨JSNum.fin (mkRat 3 2), []⟩
    (by
      have h : progressPreviousSeries fracPrevSnap =
          [⟨JSNum.fin (mkRat 3 2), []⟩] := rfl
      rw [h]
      exact List.mem_singleton.mpr rfl)

/-- C6: after trimming and lowercasing, the lookup panel shows exactly
one of the mutually exclusive states: empty input gives the no-query
state; non-empty input failing the 0x-plus-40-lowercase-hex pattern
gives the invalid-format state; a well-formed address gives the first
matching identity row or the not-found state; and the not-found state
is only reachable with a non-empty, well-formed, unmatched input. -/
theorem claim6_search_states (input : String) (lookup : List JsVal) :
    (hasSearchValue input = false → uiSearchState input lookup = some .noQuery) ∧
    (hasSearchValue input = true → addressPatternTest (normalizedSearchAddress input) = false →
      uiSearchState input lookup = some .invalidFormat) ∧
    (hasSearchValue input = true → addressPatternTest (normalizedSearchAddress input) = true →
      uiSearchState input lookup =
        some (match lookup.find? (fun row => rowAddressEq row (normalizedSearchAddress input)) with
          | some row => SearchState.found row
          | none => SearchState.notFound)) ∧
    (uiSearchState input lookup = some .notFound →
      hasSearchValue input = true ∧
      addressPatternTest (normalizedSearchAddress input) = true ∧
      lookup.find? (fun row => rowAddressEq row (normalizedSearchAddress input)) = none) ∧
    uiSearchState input lookup ≠ none := by
  by_cases hv : hasSearchValue input = true
  · by_cases hp : addressPatternTest (normalizedSearchAddress input) = true
    · have hvalid : isSearchAddressValid input = true := by
        simp [isSearchAddressValid, hv, hp]
      have hfi : foundIdentity input lookup =
          lookup.find? (fun row => rowAddressEq row (normalizedSearchAddress input)) := by
        simp [foundIdentity, hv, hvalid]
      cases hf : lookup.find? (fun row => rowAddressEq row (normalizedSearchAddress input)) with
      | some row =>
        have hui : uiSearchState input lookup = some (.found row) := by
          simp [uiSearchState, hv, hvalid, hfi, hf]
        refine ⟨by simp [hv], by simp [hp], ?_, ?_, by simp [hui]⟩
        · intro _ _
          rw [hui]
        · intro habs
          rw [hui] at habs
          simp at habs
      | none =>
        have hui : uiSearchState input lookup = some .notFound := by
          simp [uiSearchState, hv, hvalid, hfi, hf, showSearchNotFound]
        refine ⟨by simp [hv], by simp [hp], ?_, ?_, by simp [hui]⟩
        · intro _ _
          rw [hui]
        · intro _
          exact ⟨hv, hp, rfl⟩
    · have hvalid : isSearchAddressValid input = false := by
        simp [isSearchAddressValid, hv]
        simpa using hp
      have hui : uiSearchState input lookup = some .invalidFormat := by
        simp [uiSearchState, hv, hvalid]
      refine ⟨by simp [hv], fun _ _ => hui, ?_, ?_, by simp [hui]⟩
      · intro _ hp2
        rw [hp2] at hp
        exact absurd rfl hp
      · intro habs
        rw [hui] at habs
        simp at habs
  · have hui : uiSearchState input lookup = some .noQuery := by
      simp [uiSearchState, hv]
    refine ⟨fun _ => hui, ?_, ?_, ?_, by simp [hui]⟩
    · intro hv2
      rw [hv2] at hv
      exact absurd rfl hv
    · intro hv2
      rw [hv2] at hv
      exact absurd rfl hv
    · intro habs
      rw [hui] at habs
      simp at habs

/-- Witness for C6: the four states at concrete inputs, including the
mixed-case found scenario. -/
theorem claim6_search_states_witness :
    uiSearchState "" [witnessAddrRow] = some .noQuery ∧
    uiSearchState "0x123" [witnessAddrRow] = some .invalidFormat ∧
    uiSearchState " 0xAAAAAAAAAAAAAAAAAAAAAAAAAAAAAAAAAAAAAAAA " [witnessAddrRow] =
      some (.found witnessAddrRow) ∧
    uiSearchState "0xbbbbbbbbbbbbbbbbbbbbbbbbbbbbbbbbbbbbbbbb" [witnessAddrRow] =
      some .notFound := by
  refine ⟨?_, ?_, ?_, ?_⟩
  · exact (claim6_search_states "" [witnessAddrRow]).1 (by decide)
  · exact (claim6_search_states "0x123" [witnessAddrRow]).2.1 (by decide) (by decide)
  · exact ((claim6_search_states " 0xAAAAAAAAAAAAAAAAAAAAAAAAAAAAAAAAAAAAAAAA "
      [witnessAddrRow]).2.2.1 (by decide) (by decide)).trans (by rfl)
  · exact ((claim6_search_states "0xbbbbbbbbbbbbbbbbbbbbbbbbbbbbbbbbbbbbbbbb"
      [witnessAddrRow]).2.2.1 (by decide) (by decide)).trans (by rfl)

/-- The formatted duration always ends in the character s. -/
theorem formatDuration_lastChar (q : ℚ) : (formatDuration q).data.getLast? = some 's' := by
  unfold formatDuration
  simp [String.data_append, ← List.cons_append, ← List.append_assoc, List.getLast?_append_cons]

/-- A formatted duration is never the unavailable label. -/
theorem formatDuration_ne_unavailable (q : ℚ) : formatDuration q ≠ "Unavailable" := by
  intro h
  have h2 : (formatDuration q).data.getLast? = ("Unavailable" : String).data.getLast? := by rw [h]
  rw [formatDuration_lastChar] at h2
  exact absurd h2 (by decide)

/-- A formatted duration is never the session-started label. -/
theorem formatDuration_ne_started (q : ℚ) : formatDuration q ≠ "Session started" := by
  intro h
  have h2 : (formatDuration q).data.getLast? = ("Session started" : String).data.getLast? := by rw [h]
  rw [formatDuration_lastChar] at h2
  exact absurd h2 (by decide)

/-- C9: the countdown label is exactly one of three distinguishable
results: none when the instant is missing or unparsable (the
unavailable state), the started state when the floored remaining
duration is at most 0, and otherwise the formatted whole-second
duration, which never collides with the other two labels. -/
theorem claim9_countdown (d : JsVal) (nowMs : ℚ) :
    (secondsUntilNextSession d nowMs = none ↔
      nextSessionTime d = none ∨
        ∃ iso, nextSessionTime d = some iso ∧ (dateParse iso).isFinite = false) ∧
    (secondsUntilNextSession d nowMs = none →
      nextSessionCountdownLabel d nowMs = "Unavailable") ∧
    (∀ s : ℤ, secondsUntilNextSession d nowMs = some s → s ≤ 0 →
      nextSessionCountdownLabel d nowMs = "Session started") ∧
    (∀ s : ℤ, secondsUntilNextSession d nowMs = some s → 0 < s →
      nextSessionCountdownLabel d nowMs = formatDuration (s : ℚ) ∧
      nextSessionCountdownLabel d nowMs ≠ "Unavailable" ∧
      nextSessionCountdownLabel d nowMs ≠ "Session started") := by
  refine ⟨?_, ?_, ?_, ?_⟩
  · unfold secondsUntilNextSession
    cases ht : nextSessionTime d with
    | none => simp
    | some iso =>
      cases hp : dateParse iso with
      | fin ms => simp [hp, JSNum.isFinite]
      | nan => simp [hp, JSNum.isFinite]
      | inf => simp [hp, JSNum.isFinite]
      | ninf => simp [hp, JSNum.isFinite]
  · intro hn
    unfold nextSessionCountdownLabel
    rw [hn]
  · intro s hs hle
    unfold nextSessionCountdownLabel
    rw [hs]
    simp [hle]
  · intro s hs hpos
    unfold nextSessionCountdownLabel
    rw [hs]
    have hns : ¬ s ≤ 0 := not_le.mpr hpos
    simp only [if_neg hns]
    exact ⟨trivial, formatDuration_ne_unavailable _, formatDuration_ne_started _⟩

/-- 90 seconds formats with unpadded days and padded fields. -/
theorem formatDuration_ninety : formatDuration ((90 : ℤ) : ℚ) = "0d 00h 01m 30s" := by
  unfold formatDuration
  rw [Int.floor_intCast]
  rfl

/-- Witness for C9: 90 seconds ahead formats as 0d 00h 01m 30s, a past
instant reports started, an unparsable instant reports unavailable. -/
theorem claim9_countdown_witness :
    nextSessionCountdownLabel countdownSnap 0 = "0d 00h 01m 30s" ∧
    nextSessionCountdownLabel countdownSnap 200000 = "Session started" ∧
    nextSessionCountdownLabel noSessionSnap 0 = "Unavailable" := by
  have hsec : secondsUntilNextSession countdownSnap 0 = some 90 := by
    have h1 : secondsUntilNextSession countdownSnap 0 = some ⌊((90000:ℚ) - 0)/1000⌋ := rfl
    rw [h1, show ⌊((90000:ℚ) - 0)/1000⌋ = 90 from by norm_num]
  have hsec2 : secondsUntilNextSession countdownSnap 200000 = some (-110) := by
    have h1 : secondsUntilNextSession countdownSnap 200000 =
        some ⌊((90000:ℚ) - 200000)/1000⌋ := rfl
    rw [h1, show ⌊((90000:ℚ) - 200000)/1000⌋ = -110 from by norm_num]
  refine ⟨?_, ?_, ?_⟩
  · have h := (claim9_countdown countdownSnap 0).2.2.2 90 hsec (by norm_num)
    rw [h.1]
    exact formatDuration_ninety
  · exact (claim9_countdown countdownSnap 200000).2.2.1 (-110) hsec2 (by norm_num)
  · exact (claim9_countdown noSessionSnap 0).2.1 rfl

/-- C10: an unparsable first timestamp empties the whole chart series
(so it renders as the empty path for any scale, even when later points
parse), and any later point with an unparsable timestamp is silently
dropped while the parsable ones survive as elapsed-seconds points. -/
theorem claim10_chart_points (points : List ProgressPoint) (selector : ProgressPoint → ℚ) :
    (points = [] → toChartPoints points selector = []) ∧
    (∀ p rest, points = p :: rest → (dateParse p.timestamp).isFinite = false →
      toChartPoints points selector = [] ∧
      (∀ maxE maxV : ℚ, buildLinePath (toChartPoints points selector) maxE maxV = "")) ∧
    (∀ p rest base, points = p :: rest → dateParse p.timestamp = .fin base →
      toChartPoints points selector = points.filterMap (fun point =>
        match dateParse point.timestamp with
        | .fin ts => some { elapsedSeconds := max 0 ((ts - base) / 1000), value := selector point }
        | _ => none)) := by
  refine ⟨?_, ?_, ?_⟩
  · intro h
    subst h
    rfl
  · intro p rest h hbad
    subst h
    have hz : toChartPoints (p :: rest) selector = [] := by
      unfold toChartPoints
      cases hdp : dateParse p.timestamp with
      | fin ms => rw [hdp] at hbad; simp [JSNum.isFinite] at hbad
      | nan => simp [hdp]
      | inf => simp [hdp]
      | ninf => simp [hdp]
    exact ⟨hz, fun maxE maxV => by rw [hz]; rfl⟩
  · intro p rest base h hfin
    subst h
    unfold toChartPoints
    simp only []
    rw [hfin]
/-- Witness for C10: a bad first timestamp empties the series; a bad
middle timestamp is dropped while its neighbours survive. -/
theorem claim10_chart_points_witness :
    toChartPoints [wPointBad, wPointA] (fun p => p.flipsSeen) = [] ∧
    buildLinePath (toChartPoints [wPointBad, wPointA] (fun p => p.flipsSeen)) 1 1 = "" ∧
    toChartPoints [wPointA, wPointBad, wPointB] (fun p => p.flipsSeen) =
      [{ elapsedSeconds := 0, value := 3 }, { elapsedSeconds := 90, value := 5 }] := by
  have h1 := (claim10_chart_points [wPointBad, wPointA] (fun p => p.flipsSeen)).2.1
    wPointBad [wPointA] rfl (by decide)
  have h2 := (claim10_chart_points [wPointA, wPointBad, wPointB] (fun p => p.flipsSeen)).2.2
    wPointA [wPointBad, wPointB] 0 rfl rfl
  refine ⟨h1.1, h1.2 1 1, ?_⟩
  rw [h2]
  simp only [wPointA, wPointB, wPointBad, List.filterMap_cons,
    show dateParse "1970-01-01T00:00:00Z" = JSNum.fin 0 from rfl,
    show dateParse "nope" = JSNum.nan from by decide,
    show dateParse "1970-01-01T00:01:30Z" = JSNum.fin 90000 from rfl]
  norm_num

/-- C4: the empty series yields the empty path; a one-point series
yields a horizontal line at the scaled Y spanning the full width; a
series of N at least 2 points yields exactly N whitespace-joined
commands, the i-th encoding the i-th input point, the first an M and
every later one an L — no interpolation or resampling. -/
theorem claim4_line_path (points : List ChartPoint) (maxE maxV : ℚ) :
    (points = [] → buildLinePath points maxE maxV = "") ∧
    (∀ p, points = [p] → buildLinePath points maxE maxV =
      "M0 " ++ toFixed2 (CHART_HEIGHT - (p.value / (if 0 < maxV then maxV else 1)) * CHART_HEIGHT) ++
      " L720 " ++ toFixed2 (CHART_HEIGHT - (p.value / (if 0 < maxV then maxV else 1)) * CHART_HEIGHT)) ∧
    (2 ≤ points.length →
      buildLinePath points maxE maxV = String.intercalate " " (lineCommands points maxE maxV) ∧
      (lineCommands points maxE maxV).length = points.length ∧
      (∀ i : ℕ, (lineCommands points maxE maxV)[i]? = (points[i]?).map (fun p =>
        pointCommand (i = 0) p (if 0 < maxE then maxE else 1) (if 0 < maxV then maxV else 1))) ∧
      (∀ i : ℕ, ∀ cmd : String, (lineCommands points maxE maxV)[i]? = some cmd →
        ∃ rest : String, cmd = (if i = 0 then "M" else "L") ++ rest)) := by
  refine ⟨?_, ?_, ?_⟩
  · intro h
    subst h
    rfl
  · intro p h
    subst h
    rfl
  · intro hlen
    have hcmds : buildLinePath points maxE maxV =
        String.intercalate " " (lineCommands points maxE maxV) := by
      unfold buildLinePath lineCommands
      match points, hlen with
      | p1 :: p2 :: rest, _ => rfl
    have hget : ∀ i : ℕ, (lineCommands points maxE maxV)[i]? = (points[i]?).map (fun p =>
        pointCommand (i = 0) p (if 0 < maxE then maxE else 1) (if 0 < maxV then maxV else 1)) := by
      intro i
      unfold lineCommands
      rw [List.getElem?_map, List.getElem?_enum]
      cases hp : points[i]? <;> simp [hp]
    refine ⟨hcmds, by simp [lineCommands], hget, ?_⟩
    intro i cmd hcmd
    rw [hget i] at hcmd
    cases hp : points[i]? with
    | none => rw [hp] at hcmd; simp at hcmd
    | some p =>
      rw [hp] at hcmd
      have hcmd2 : cmd = pointCommand (decide (i = 0)) p
          (if 0 < maxE then maxE else 1) (if 0 < maxV then maxV else 1) := by
        simpa using hcmd.symm
      subst hcmd2
      refine ⟨toFixed2 ((p.elapsedSeconds / (if 0 < maxE then maxE else 1)) * CHART_WIDTH) ++ " " ++
        toFixed2 (CHART_HEIGHT - (p.value / (if 0 < maxV then maxV else 1)) * CHART_HEIGHT), ?_⟩
      unfold pointCommand
      by_cases hi : i = 0
      · simp [hi, String.append_assoc]
      · simp [hi, String.append_assoc]
/-- toFixed of zero. -/
theorem toFixed2_zero : toFixed2 0 = "0.00" := by
  unfold toFixed2 toFixed2Pos
  rw [if_neg (by norm_num : ¬ (0:ℚ) < 0)]
  rw [show ⌊(0:ℚ) * 100 + 1/2⌋ = 0 from by norm_num]
  rfl

/-- Evaluation rule for toFixed on a nonnegative rational. -/
theorem toFixed2_value (q : ℚ) (n : ℕ) (h1 : ¬ q < 0) (h2 : ⌊q * 100 + 1/2⌋ = (n : ℤ)) :
    toFixed2 q = toString (n / 100) ++ "." ++ pad2 (n % 100) := by
  unfold toFixed2 toFixed2Pos
  rw [if_neg h1, h2]
  simp

/-- Witness for C4: concrete empty, single-point and two-point paths. -/
theorem claim4_line_path_witness :
    buildLinePath [] 5 7 = "" ∧
    buildLinePath [{ elapsedSeconds := 0, value := 1 }] 1 1 = "M0 0.00 L720 0.00" ∧
    buildLinePath [{ elapsedSeconds := 0, value := 1 }, { elapsedSeconds := 10, value := 2 }] 10 2 =
      "M0.00 110.00 L720.00 0.00" := by
  have h110 : toFixed2 110 = "110.00" := by
    rw [toFixed2_value 110 11000 (by norm_num) (by norm_num)]
    rfl
  have h720 : toFixed2 720 = "720.00" := by
    rw [toFixed2_value 720 72000 (by norm_num) (by norm_num)]
    rfl
  refine ⟨(claim4_line_path [] 5 7).1 rfl, ?_, ?_⟩
  · have h := (claim4_line_path [{ elapsedSeconds := 0, value := 1 }] 1 1).2.1
      { elapsedSeconds := 0, value := 1 } rfl
    rw [h]
    rw [show CHART_HEIGHT - (({ elapsedSeconds := 0, value := 1 } : ChartPoint).value /
      (if (0:ℚ) < 1 then (1:ℚ) else 1)) * CHART_HEIGHT = 0 from by norm_num [CHART_HEIGHT]]
    rw [toFixed2_zero]
    rfl
  · have h := ((claim4_line_path
      [{ elapsedSeconds := 0, value := 1 }, { elapsedSeconds := 10, value := 2 }] 10 2).2.2
      (by decide)).1
    rw [h]
    have hcmds : lineCommands
        [{ elapsedSeconds := 0, value := 1 }, { elapsedSeconds := 10, value := 2 }] 10 2 =
        ["M" ++ toFixed2 0 ++ " " ++ toFixed2 110, "L" ++ toFixed2 720 ++ " " ++ toFixed2 0] := by
      unfold lineCommands pointCommand
      simp only [List.enum, List.enumFrom, List.map]
      norm_num [CHART_WIDTH, CHART_HEIGHT]
    rw [hcmds, toFixed2_zero, h110, h720]
    rfl

/-- A JS max with initial floor 1 is at least 1. -/
theorem le_jsMaxFrom1 (values : List ℚ) : 1 ≤ jsMaxFrom1 values := by
  unfold jsMaxFrom1
  have haux : ∀ (l : List ℚ) (a : ℚ), a ≤ l.foldl max a := by
    intro l
    induction l with
    | nil => intro a; exact le_refl a
    | cons x xs ih =>
      intro a
      calc a ≤ max a x := le_max_left a x
        _ ≤ xs.foldl max (max a x) := ih (max a x)
  exact haux values 1

/-- C5: buildMetricChart scales every series it renders — the current
path and every trailing path — with the single shared maximum elapsed
time and the single shared maximum metric value, each computed across
all series together and each at least 1. -/
theorem claim5_shared_scales (cur : Option ProgressEpochSeries)
    (prev : List ProgressEpochSeries) (selector : ProgressPoint → ℚ) :
    1 ≤ (buildMetricChart cur prev selector).maxElapsedSeconds ∧
    1 ≤ (buildMetricChart cur prev selector).maxValue ∧
    (buildMetricChart cur prev selector).maxElapsedSeconds =
      jsMaxFrom1 (allElapsedValues (currentChartPoints cur selector)
        (prev.map (fun series => toChartPoints series.points selector))) ∧
    (buildMetricChart cur prev selector).maxValue =
      jsMaxFrom1 (allMetricValues (currentChartPoints cur selector)
        (prev.map (fun series => toChartPoints series.points selector))) ∧
    (buildMetricChart cur prev selector).currentPath =
      buildLinePath (currentChartPoints cur selector)
        (buildMetricChart cur prev selector).maxElapsedSeconds
        (buildMetricChart cur prev selector).maxValue ∧
    (buildMetricChart cur prev selector).trailingPaths =
      (prev.map (fun series => (series.epoch, toChartPoints series.points selector))).enum.map
        (fun ip =>
          { epoch := ip.2.1
            path := buildLinePath ip.2.2
              (buildMetricChart cur prev selector).maxElapsedSeconds
              (buildMetricChart cur prev selector).maxValue
            opacity := if ip.1 = 0 then 45 / 100 else 24 / 100 }) := by
  refine ⟨?_, ?_, ?_, ?_, ?_, ?_⟩
  · exact le_jsMaxFrom1 _
  · exact le_jsMaxFrom1 _
  · simp [buildMetricChart, allElapsedValues, currentChartPoints, List.map_map, Function.comp_def]
  · simp [buildMetricChart, allMetricValues, currentChartPoints, List.map_map, Function.comp_def]
  · rfl
  · rfl

end ExtraFlips
